import Mathlib

/-!
Shallow embedding of `src/main.rs` of the `eww_prayer_times` repository.

Local instants (`chrono::DateTime<Local>`) are modelled as `Int` seconds on
a time line with a fixed local offset; a local calendar date is the integer
day number `t / 86400` and the second-of-day is `t % 86400`.  Daylight-saving
resolution of a wall-clock time (`chrono::LocalResult`) is modelled
explicitly where the code touches it.  Strings are Lean `String`s; the Rust
`Duration` returned by `chrono::Duration::to_std` is a `Nat` of seconds and
its failure on negative durations is an `Option`.
-/

/-- The five canonical prayers, mirroring `salah::Prayer` as used in `main.rs`. -/
inductive Prayer
  | Fajr
  | Dhuhr
  | Asr
  | Maghrib
  | Isha
deriving DecidableEq, Repr

/-- Rust `format!("{:?}", prayer)`: the derived Debug name of the variant. -/
def Prayer.debugFmt : Prayer → String
  | .Fajr => "Fajr"
  | .Dhuhr => "Dhuhr"
  | .Asr => "Asr"
  | .Maghrib => "Maghrib"
  | .Isha => "Isha"

/-- The canonical order of the five prayers as the `prayer_times` array lists them. -/
def canonicalOrder : List Prayer := [.Fajr, .Dhuhr, .Asr, .Maghrib, .Isha]

/-- The five local instants of one daily schedule
(`fajr_time`, ..., `isha_time` in `main.rs`, lines 144-148). -/
structure FiveTimes where
  fajr : Int
  dhuhr : Int
  asr : Int
  maghrib : Int
  isha : Int

/-- The `prayer_times` array of `main.rs` lines 151-157: the five
(prayer, instant) pairs in canonical order. -/
def scheduleOf (ts : FiveTimes) : List (Prayer × Int) :=
  [(.Fajr, ts.fajr), (.Dhuhr, ts.dhuhr), (.Asr, ts.asr),
   (.Maghrib, ts.maghrib), (.Isha, ts.isha)]

/-- `main.rs` line 159: `prayer_times.iter().find(|(_, time)| *time > now)`. -/
def nextPrayerInfo (schedule : List (Prayer × Int)) (now : Int) :
    Option (Prayer × Int) :=
  schedule.find? (fun pt => now < pt.2)

/-- Local midnight (00:00:00) of a given day number in the fixed-offset model. -/
def midnightOf (day : Int) : Int := day * 86400

/-- `main.rs` lines 202-205: `tomorrow = local_date.succ_opt().unwrap()` and
`with_ymd_and_hms(tomorrow..., 0, 0, 1)` - the following day's midnight plus
one second. -/
def rolloverTarget (localDate : Int) : Int := midnightOf (localDate + 1) + 1

/-- The `NextEvent` choice: a found prayer, or the midnight rollover sentinel. -/
inductive NextEvent
  | prayer (p : Prayer) (t : Int)
  | rollover (target : Int)
deriving DecidableEq, Repr

/-- Next-event selection: the result of the `find` on line 159, or, when it is
`None`, the rollover target of lines 202-205. -/
def selectNextEvent (ts : FiveTimes) (localDate : Int) (now : Int) : NextEvent :=
  match nextPrayerInfo (scheduleOf ts) now with
  | some (p, t) => .prayer p t
  | none => .rollover (rolloverTarget localDate)

/-- `chrono::Duration::to_std`: succeeds with the `Nat` of seconds when the
duration is nonnegative, fails (`Err(OutOfRangeError)`) when negative. -/
def durationToStd (d : Int) : Option Nat :=
  if d < 0 then none else some d.toNat

/-- `main.rs` line 184, prayer branch:
`(*time - now).to_std().unwrap_or(Duration::from_secs(0))`. -/
def prayerSleepDuration (target now : Int) : Nat :=
  (durationToStd (target - now)).getD 0

/-- `main.rs` line 206, rollover branch:
`(midnight_local - now).to_std()?` - the error is propagated, not floored. -/
def rolloverSleepDuration (target now : Int) : Option Nat :=
  durationToStd (target - now)

/-- CLI location resolution outcome of `main.rs` lines 107-113: the
`if let Some(city) ... else if let Some(coordinate_str) ... else Err` chain. -/
inductive Resolution
  | usedCity (name : String)
  | usedCoordinate (s : String)
  | configError
deriving DecidableEq, Repr

/-- `main.rs` lines 107-113: which location source the program uses, or the
configuration error when neither flag is present. -/
def resolveSource (city coordinate : Option String) : Resolution :=
  match city with
  | some c => .usedCity c
  | none =>
    match coordinate with
    | some s => .usedCoordinate s
    | none => .configError

/-- `chrono::LocalResult`: resolving a wall-clock local time to an instant can
give a unique instant, two candidates (daylight-saving overlap), or none
(daylight-saving gap). -/
inductive LocalResult (α : Type)
  | single (a : α)
  | ambiguous (a b : α)
  | invalid
deriving DecidableEq, Repr

/-- `LocalResult::single()`: `Some` exactly in the unique case. -/
def LocalResult.toSingle : LocalResult α → Option α
  | .single a => some a
  | _ => none

/-- `main.rs` lines 121-126: `Local.from_local_datetime(&naive_dt).single()
.ok_or("Ambiguous or invalid time provided for --test-at")?`. -/
def testAtResolve (r : LocalResult Int) : Except String Int :=
  match r.toSingle with
  | some t => .ok t
  | none => .error "Ambiguous or invalid time provided for --test-at"

/-- `main.rs` lines 203-205: `Local.with_ymd_and_hms(...).unwrap()`.
`LocalResult::unwrap` panics unless the result is `single`; the panic is
modelled as `none`. -/
def midnightResolve (r : LocalResult Int) : Option Int :=
  r.toSingle

/-- Hour-of-day of an instant in the fixed-offset model (what `%H` prints). -/
def hourOf (t : Int) : Nat := ((t.emod 86400) / 3600).toNat

/-- Minute-of-hour of an instant in the fixed-offset model (what `%M` prints). -/
def minuteOf (t : Int) : Nat := (((t.emod 86400).emod 3600) / 60).toNat

/-- Day number of an instant (the `date_naive()` of a local instant). -/
def dateOf (t : Int) : Int := t / 86400

/-- The instant of a given (day, hour, minute) local wall-clock time with zero
seconds, in the fixed-offset model. -/
def atTime (day : Int) (h m : Nat) : Int := day * 86400 + h * 3600 + m * 60

/-- The character of a decimal digit. -/
def digitChar (d : Nat) : Char := Char.ofNat (48 + d)

/-- Zero-padded two-digit decimal rendering, as chrono's `%H` / `%M` produce
for values below 100. -/
def pad2 (n : Nat) : String := String.mk [digitChar (n / 10), digitChar (n % 10)]

/-- chrono's `format("%H:%M")` on (hour, minute): zero-padded 24-hour "HH:MM". -/
def formatHHMM (h m : Nat) : String := pad2 h ++ ":" ++ pad2 m

/-- The "HH:MM" rendering of an instant, `time.format("%H:%M").to_string()`
in `main.rs` lines 167-171. -/
def fmtInstant (t : Int) : String := formatHHMM (hourOf t) (minuteOf t)

/-- The numeric value of a decimal digit character, `none` on a non-digit. -/
def digitVal (c : Char) : Option Nat :=
  if c.isDigit then some (c.toNat - 48) else none

/-- Parsing a five-character "HH:MM" string as a local time-of-day
(hour, minute), as chrono's `%H:%M` parse accepts it: two digits, a colon,
two digits, hour below 24 and minute below 60. -/
def parseHHMM (s : String) : Option (Nat × Nat) :=
  match s.data with
  | [h1, h2, c, m1, m2] =>
    if c = ':' then
      match digitVal h1, digitVal h2, digitVal m1, digitVal m2 with
      | some a, some b, some x, some y =>
        let h := 10 * a + b
        let m := 10 * x + y
        if h < 24 ∧ m < 60 then some (h, m) else none
      | _, _, _, _ => none
    else none
  | _ => none

/-- `PrayerOutput` of `main.rs` lines 12-25: the five formatted times and the
name of the next prayer. -/
structure PrayerOutput where
  fajr : String
  dhuhr : String
  asr : String
  maghrib : String
  isha : String
  next : String
deriving DecidableEq, Repr

/-- `serde_json::to_writer` on a `PrayerOutput`: compact JSON with the serde
rename keys, fields in declaration order.  The field values the program
produces ("HH:MM" strings and prayer names) need no JSON escaping. -/
def PrayerOutput.toJson (o : PrayerOutput) : String :=
  "\x7b\"Fajr\":\"" ++ o.fajr ++ "\",\"Dhuhr\":\"" ++ o.dhuhr ++
  "\",\"Asr\":\"" ++ o.asr ++ "\",\"Maghrib\":\"" ++ o.maghrib ++
  "\",\"Isha\":\"" ++ o.isha ++ "\",\"next\":\"" ++ o.next ++ "\"\x7d"

/-- `main.rs` lines 162-164: the `next` field is the Debug name of the found
prayer, or the literal "Fajr" when no prayer is left today. -/
def nextPrayerNameForJson (info : Option (Prayer × Int)) : String :=
  match info with
  | some (p, _) => p.debugFmt
  | none => "Fajr"

/-- The `output_struct` of `main.rs` lines 166-173. -/
def mkOutput (ts : FiveTimes) (now : Int) : PrayerOutput :=
  { fajr := fmtInstant ts.fajr
    dhuhr := fmtInstant ts.dhuhr
    asr := fmtInstant ts.asr
    maghrib := fmtInstant ts.maghrib
    isha := fmtInstant ts.isha
    next := nextPrayerNameForJson (nextPrayerInfo (scheduleOf ts) now) }

/-- The line written to stdout on lines 175-180: the compact JSON object
followed by the `writeln!` newline. -/
def outputLine (ts : FiveTimes) (now : Int) : String :=
  (mkOutput ts now).toJson ++ "\n"

/-- One observable side effect of a scheduler cycle, in program order. -/
inductive Effect
  | emitStdout (line : String)
  | emitStderr (line : String)
  | sleep (secs : Nat)
  | notify (summary body : String)
deriving DecidableEq, Repr

/-- The notification summary of `main.rs` line 196. -/
def notifySummary (name : String) : String := "Waktu Sholat " ++ name

/-- The notification body of `main.rs` line 197. -/
def notifyBody (name : String) : String := "Saatnya menunaikan sholat " ++ name

/-- The ordered side effects of one loop iteration of `main.rs` lines 132-216,
after the schedule for `now`'s date has been computed: the stdout write, then
the prayer branch (optional test-mode stderr, sleep until the prayer, the
notification, the one-second cooldown) or the rollover branch (optional
test-mode stderr, sleep until the rollover target).  `none` models the `?`
propagation when `to_std` fails on a negative rollover duration. -/
def cycleTrace (ts : FiveTimes) (localDate : Int) (now : Int) (testMode : Bool) :
    Option (List Effect) :=
  let info := nextPrayerInfo (scheduleOf ts) now
  let stdoutAct := Effect.emitStdout (outputLine ts now)
  match info with
  | some (p, t) =>
    let d := prayerSleepDuration t now
    let name := p.debugFmt
    some ([stdoutAct] ++
      (if testMode then [Effect.emitStderr "[TEST MODE] Sleeping."] else []) ++
      [Effect.sleep d, Effect.notify (notifySummary name) (notifyBody name),
       Effect.sleep 1])
  | none =>
    match rolloverSleepDuration (rolloverTarget localDate) now with
    | some d =>
      some ([stdoutAct] ++
        (if testMode then [Effect.emitStderr "[TEST MODE] No more prayers today."] else []) ++
        [Effect.sleep d])
    | none => none

/-- `main.rs` lines 132-224: the loop runs a cycle, then breaks exactly when
`test_now.is_some()`.  Given fuel `n`, returns the concatenated traces of the
cycles run and whether the loop exited (reaching `Ok(())`). -/
def loopRun (cyc : List Effect) (testMode : Bool) : Nat → List Effect × Bool
  | 0 => ([], false)
  | n + 1 =>
    if testMode then (cyc, true)
    else
      let r := loopRun cyc testMode n
      (cyc ++ r.1, r.2)

/-- An effect is a stdout write. -/
def Effect.isStdout : Effect → Bool
  | .emitStdout _ => true
  | _ => false

/-- An effect is a notification. -/
def Effect.isNotify : Effect → Bool
  | .notify _ _ => true
  | _ => false

/-- A string containing no newline character (a "single line"). -/
def noNewline (s : String) : Prop := '\n' ∉ s.data

/-- C2: the claim says both sleep-duration branches floor a past target at
zero and never error; the rollover branch (`to_std()?`, line 206) instead
propagates the error on a negative duration.  At target 0, now 1 it returns
the error, not a zero wait. -/
theorem C2_counterexample :
    rolloverSleepDuration 0 1 = none ∧ rolloverSleepDuration 0 1 ≠ some 0 := by
  decide

/-- C2 (amended): the prayer-branch wait is `target - now` floored at zero and
never errors; the rollover-branch wait equals `target - now` when `now` is not
after the target (zero at equality), but propagates an error when the target
is strictly before `now`. -/
theorem C2_wait_durations (target now : Int) :
    prayerSleepDuration target now = (target - now).toNat ∧
    (target ≤ now → prayerSleepDuration target now = 0) ∧
    (now ≤ target → rolloverSleepDuration target now = some (target - now).toNat) ∧
    (target < now → rolloverSleepDuration target now = none) := by
  unfold prayerSleepDuration rolloverSleepDuration durationToStd
  refine ⟨?_, ?_, ?_, ?_⟩ <;> intros <;> split <;> simp_all <;> omega

/-- Witness for `C2_wait_durations` at concrete inputs. -/
theorem C2_wait_durations_witness :
    prayerSleepDuration 5 10 = 0 ∧ rolloverSleepDuration 5 10 = none ∧
    rolloverSleepDuration 10 5 = some 5 := by
  refine ⟨(C2_wait_durations 5 10).2.1 (by decide),
          (C2_wait_durations 5 10).2.2.2 (by decide), ?_⟩
  have h := (C2_wait_durations 10 5).2.2.1 (by decide)
  rw [h]; decide

/-- C3: the claim says supplying both `--city` and `--coordinate` fails with a
configuration error; the code (lines 107-113) instead silently uses `--city`
and ignores `--coordinate`. -/
theorem C3_counterexample :
    resolveSource (some "Jakarta") (some "1.35,103.8") = .usedCity "Jakarta" ∧
    resolveSource (some "Jakarta") (some "1.35,103.8") ≠ .configError := by
  decide

/-- C3 (amended): startup fails with a configuration error exactly when
neither `--city` nor `--coordinate` is supplied; when both are supplied the
program does not fail but uses `--city` and ignores `--coordinate`. -/
theorem C3_location_flags (c s : String) :
    resolveSource none none = .configError ∧
    resolveSource (some c) none = .usedCity c ∧
    resolveSource (some c) (some s) = .usedCity c ∧
    resolveSource none (some s) = .usedCoordinate s :=
  ⟨rfl, rfl, rfl, rfl⟩

/-- C4: both local-time resolution sites fail deterministically on an
ambiguous (two-candidate) or non-existent local time instead of picking a
candidate: `--test-at` parsing returns the error string, and the midnight
rollover construction's `unwrap` aborts (modelled as `none`); only a unique
resolution produces an instant, and then it is that instant. -/
theorem C4_ambiguous_time_fails (a b : Int) :
    testAtResolve (.ambiguous a b) =
      .error "Ambiguous or invalid time provided for --test-at" ∧
    testAtResolve .invalid =
      .error "Ambiguous or invalid time provided for --test-at" ∧
    midnightResolve (LocalResult.ambiguous a b) = none ∧
    midnightResolve (LocalResult.invalid : LocalResult Int) = none ∧
    testAtResolve (.single a) = .ok a ∧
    midnightResolve (LocalResult.single a) = some a :=
  ⟨rfl, rfl, rfl, rfl, rfl, rfl⟩

/-- C6: when no prayer instant is strictly after `now`, the selected event is
the rollover and the emitted `next` field is the literal "Fajr", the Debug
name of the first prayer in canonical order. -/
theorem C6_rollover_label_is_fajr (ts : FiveTimes) (localDate now : Int)
    (h : ∀ pt ∈ scheduleOf ts, pt.2 ≤ now) :
    selectNextEvent ts localDate now = .rollover (rolloverTarget localDate) ∧
    nextPrayerNameForJson (nextPrayerInfo (scheduleOf ts) now) = "Fajr" ∧
    canonicalOrder.head? = some .Fajr ∧ Prayer.Fajr.debugFmt = "Fajr" := by
  have hnone : nextPrayerInfo (scheduleOf ts) now = none := by
    apply List.find?_eq_none.mpr
    intro pt hpt
    simpa using not_lt.mpr (h pt hpt)
  refine ⟨?_, ?_, rfl, rfl⟩
  · unfold selectNextEvent
    rw [hnone]
  · rw [hnone]
    rfl

/-- Witness for `C6_rollover_label_is_fajr`: a day whose five instants have
all passed. -/
theorem C6_rollover_label_witness :
    selectNextEvent ⟨1, 2, 3, 4, 5⟩ 0 10 = .rollover 86401 ∧
    nextPrayerNameForJson (nextPrayerInfo (scheduleOf ⟨1, 2, 3, 4, 5⟩) 10) = "Fajr" := by
  have h := C6_rollover_label_is_fajr ⟨1, 2, 3, 4, 5⟩ 0 10 (by decide)
  exact ⟨h.1.trans (by decide), h.2.1⟩

/-- C1: under the strictly-increasing invariant, next-event selection returns
the first - hence minimum - schedule instant strictly greater than `now` as a
`Prayer` event; when every instant is at most `now`, it returns a `Rollover`
whose target is the following day's midnight plus exactly one second. -/
theorem C1_next_event_selection (ts : FiveTimes) (localDate now : Int)
    (h1 : ts.fajr < ts.dhuhr) (h2 : ts.dhuhr < ts.asr)
    (h3 : ts.asr < ts.maghrib) (h4 : ts.maghrib < ts.isha) :
    match selectNextEvent ts localDate now with
    | .prayer p t =>
        (p, t) ∈ scheduleOf ts ∧ now < t ∧
        ∀ pt ∈ scheduleOf ts, now < pt.2 → t ≤ pt.2
    | .rollover tgt =>
        (∀ pt ∈ scheduleOf ts, pt.2 ≤ now) ∧ tgt = midnightOf (localDate + 1) + 1 := by
  unfold selectNextEvent nextPrayerInfo scheduleOf
  by_cases hf : now < ts.fajr
  all_goals by_cases hd : now < ts.dhuhr
  all_goals by_cases ha : now < ts.asr
  all_goals by_cases hm : now < ts.maghrib
  all_goals by_cases hi : now < ts.isha
  all_goals simp [List.find?, rolloverTarget, midnightOf, hf, hd, ha, hm, hi]
  all_goals omega

/-- Witness for `C1_next_event_selection`: a sorted schedule with `now`
between Dhuhr and Asr selects Asr. -/
theorem C1_next_event_selection_witness :
    (Prayer.Asr, (300 : Int)) ∈ scheduleOf ⟨100, 200, 300, 400, 500⟩ ∧
    (250 : Int) < 300 :=
  have h := C1_next_event_selection ⟨100, 200, 300, 400, 500⟩ 0 250
    (by decide) (by decide) (by decide) (by decide)
  ⟨h.1, h.2.1⟩

/-- C5: with a test override the loop runs exactly one cycle's effects and
exits (reaching `Ok(())`); without it, after any number of cycles the loop
has produced that many cycles' effects and has not exited. -/
theorem C5_single_shot_or_forever (cyc : List Effect) (n : Nat) :
    (1 ≤ n → loopRun cyc true n = (cyc, true)) ∧
    loopRun cyc false n = ((List.replicate n cyc).flatten, false) := by
  induction n with
  | zero => exact ⟨fun h => absurd h (by omega), by simp [loopRun]⟩
  | succ n ih =>
    refine ⟨fun _ => by simp [loopRun], ?_⟩
    simp [loopRun, List.replicate_succ, ih.2]

/-- Witness for `C5_single_shot_or_forever`. -/
theorem C5_single_shot_witness :
    loopRun [Effect.sleep 1] true 5 = ([Effect.sleep 1], true) ∧
    loopRun [Effect.sleep 1] false 2 = ([Effect.sleep 1, Effect.sleep 1], false) := by
  refine ⟨(C5_single_shot_or_forever [Effect.sleep 1] 5).1 (by decide), ?_⟩
  have h := (C5_single_shot_or_forever [Effect.sleep 1] 2).2
  rw [h]; rfl

theorem parse_format_roundtrip : ∀ h < 24, ∀ m < 60,
    parseHHMM (formatHHMM h m) = some (h, m) := by decide

theorem hourOf_lt (t : Int) : hourOf t < 24 := by
  unfold hourOf
  have h0 : 0 ≤ t.emod 86400 := Int.emod_nonneg t (by norm_num)
  have h1 : t.emod 86400 < 86400 := Int.emod_lt_of_pos t (by norm_num)
  omega

theorem minuteOf_lt (t : Int) : minuteOf t < 60 := by
  unfold minuteOf
  have h0 : 0 ≤ (t.emod 86400).emod 3600 := Int.emod_nonneg _ (by norm_num)
  have h1 : (t.emod 86400).emod 3600 < 3600 := Int.emod_lt_of_pos _ (by norm_num)
  omega

/-- C9: formatting an instant as zero-padded "HH:MM" and reparsing it as a
local time-of-day on the instant's date reproduces the instant truncated to
minute precision. -/
theorem C9_hhmm_roundtrip (t : Int) :
    parseHHMM (fmtInstant t) = some (hourOf t, minuteOf t) ∧
    atTime (dateOf t) (hourOf t) (minuteOf t) = t - t.emod 60 := by
  constructor
  · exact parse_format_roundtrip _ (hourOf_lt t) _ (minuteOf_lt t)
  · have e1 : 86400 * (t / 86400) + t.emod 86400 = t := Int.ediv_add_emod t 86400
    have e2 : 3600 * (t.emod 86400 / 3600) + (t.emod 86400).emod 3600 = t.emod 86400 :=
      Int.ediv_add_emod _ 3600
    have e3 : 60 * ((t.emod 86400).emod 3600 / 60) +
        ((t.emod 86400).emod 3600).emod 60 = (t.emod 86400).emod 3600 :=
      Int.ediv_add_emod _ 60
    have e4 : ((t.emod 86400).emod 3600).emod 60 = (t.emod 86400).emod 60 :=
      Int.emod_emod_of_dvd _ (by norm_num)
    have e5 : (t.emod 86400).emod 60 = t.emod 60 :=
      Int.emod_emod_of_dvd t (by norm_num)
    have b1 : 0 ≤ t.emod 86400 := Int.emod_nonneg t (by norm_num)
    have b2 : t.emod 86400 < 86400 := Int.emod_lt_of_pos t (by norm_num)
    have b3 : 0 ≤ (t.emod 86400).emod 3600 := Int.emod_nonneg _ (by norm_num)
    have b4 : (t.emod 86400).emod 3600 < 3600 := Int.emod_lt_of_pos _ (by norm_num)
    have b5 : 0 ≤ ((t.emod 86400).emod 3600).emod 60 := Int.emod_nonneg _ (by norm_num)
    have b6 : ((t.emod 86400).emod 3600).emod 60 < 60 := Int.emod_lt_of_pos _ (by norm_num)
    unfold atTime dateOf hourOf minuteOf
    omega

theorem digitChar_ne_newline : ∀ d < 10, digitChar d ≠ '\n' := by decide

theorem noNewline_pad2 (n : Nat) (h : n < 100) : noNewline (pad2 n) := by
  unfold noNewline pad2
  intro hmem
  rcases List.mem_cons.mp hmem with h1 | h1
  · exact digitChar_ne_newline (n / 10) (by omega) h1.symm
  · rcases List.mem_cons.mp h1 with h2 | h2
    · exact digitChar_ne_newline (n % 10) (by omega) h2.symm
    · simp at h2

theorem noNewline_append {a b : String} (ha : noNewline a) (hb : noNewline b) :
    noNewline (a ++ b) := by
  unfold noNewline at *
  rw [String.data_append]
  intro hmem
  rcases List.mem_append.mp hmem with h | h
  · exact ha h
  · exact hb h

theorem noNewline_fmtInstant (t : Int) : noNewline (fmtInstant t) := by
  unfold fmtInstant formatHHMM
  exact noNewline_append
    (noNewline_append (noNewline_pad2 _ (by have := hourOf_lt t; omega))
      (by unfold noNewline; decide))
    (noNewline_pad2 _ (by have := minuteOf_lt t; omega))

theorem noNewline_debugFmt (p : Prayer) : noNewline p.debugFmt := by
  unfold noNewline
  cases p <;> decide

theorem noNewline_nextName (info : Option (Prayer × Int)) :
    noNewline (nextPrayerNameForJson info) := by
  unfold nextPrayerNameForJson
  match info with
  | some (p, t) => exact noNewline_debugFmt p
  | none => unfold noNewline; decide

theorem noNewline_toJson (ts : FiveTimes) (now : Int) :
    noNewline ((mkOutput ts now).toJson) := by
  unfold PrayerOutput.toJson mkOutput fmtInstant formatHHMM
  repeat' apply noNewline_append
  all_goals first
    | exact noNewline_pad2 _ (Nat.lt_of_lt_of_le (hourOf_lt _) (by norm_num))
    | exact noNewline_pad2 _ (Nat.lt_of_lt_of_le (minuteOf_lt _) (by norm_num))
    | exact noNewline_nextName _
    | (unfold noNewline; decide)

/-- C7: every successful cycle's first effect is exactly one newline-terminated
stdout write of the JSON record with keys Fajr, Dhuhr, Asr, Maghrib, Isha and
next; no other stdout write occurs, the JSON itself holds no newline, and
every sleep (the wait) comes strictly after the write. -/
theorem C7_status_emission (ts : FiveTimes) (localDate now : Int)
    (testMode : Bool) (tr : List Effect)
    (h : cycleTrace ts localDate now testMode = some tr) :
    tr.head? = some (.emitStdout (outputLine ts now)) ∧
    (tr.filter Effect.isStdout).length = 1 ∧
    outputLine ts now = (mkOutput ts now).toJson ++ "\n" ∧
    noNewline ((mkOutput ts now).toJson) ∧
    (∀ i d, tr.get? i = some (.sleep d) → 0 < i) := by
  cases hinfo : nextPrayerInfo (scheduleOf ts) now with
  | some pt =>
    obtain ⟨p, t⟩ := pt
    simp only [cycleTrace, hinfo] at h
    cases testMode <;> simp only [if_true, if_false, Bool.false_eq_true,
        ite_true, ite_false, List.append_assoc, List.nil_append,
        List.cons_append, List.singleton_append, Option.some.injEq] at h <;>
      subst h <;>
      refine ⟨rfl, rfl, rfl, noNewline_toJson ts now, ?_⟩ <;>
      intro i d hi <;>
      match i with
      | 0 => simp [List.get?] at hi
      | 1 => simp
      | Nat.succ n => simp
  | none =>
    cases hro : rolloverSleepDuration (rolloverTarget localDate) now with
    | none =>
      simp only [cycleTrace, hinfo, hro] at h
      exact Option.noConfusion h
    | some dur =>
      simp only [cycleTrace, hinfo, hro] at h
      cases testMode <;> simp only [if_true, if_false, Bool.false_eq_true,
          ite_true, ite_false, List.append_assoc, List.nil_append,
          List.cons_append, List.singleton_append, Option.some.injEq] at h <;>
        subst h <;>
        refine ⟨rfl, rfl, rfl, noNewline_toJson ts now, ?_⟩ <;>
        intro i d hi <;>
        match i with
        | 0 => simp [List.get?] at hi
        | Nat.succ n => simp

/-- C8: a cycle's trace contains a notification exactly when the selected
event is a prayer; the notification is followed by the one-second cooldown
sleep, which is the cycle's final effect before the next schedule
computation; a rollover cycle contains no notification. -/
theorem C8_notification_iff_prayer (ts : FiveTimes) (localDate now : Int)
    (testMode : Bool) (tr : List Effect)
    (h : cycleTrace ts localDate now testMode = some tr) :
    match nextPrayerInfo (scheduleOf ts) now with
    | some (p, _) =>
        (tr.filter Effect.isNotify).length = 1 ∧
        tr.getLast? = some (.sleep 1) ∧
        tr.dropLast.getLast? =
          some (.notify (notifySummary p.debugFmt) (notifyBody p.debugFmt))
    | none => (tr.filter Effect.isNotify).length = 0 := by
  cases hinfo : nextPrayerInfo (scheduleOf ts) now with
  | some pt =>
    obtain ⟨p, t⟩ := pt
    simp only [cycleTrace, hinfo] at h
    cases testMode <;> simp only [if_true, if_false, Bool.false_eq_true,
        ite_true, ite_false, List.append_assoc, List.nil_append,
        List.cons_append, List.singleton_append, Option.some.injEq] at h <;>
      subst h <;> exact ⟨rfl, rfl, rfl⟩
  | none =>
    cases hro : rolloverSleepDuration (rolloverTarget localDate) now with
    | none =>
      simp only [cycleTrace, hinfo, hro] at h
      exact Option.noConfusion h
    | some dur =>
      simp only [cycleTrace, hinfo, hro] at h
      cases testMode <;> simp only [if_true, if_false, Bool.false_eq_true,
          ite_true, ite_false, List.append_assoc, List.nil_append,
          List.cons_append, List.singleton_append, Option.some.injEq] at h <;>
        subst h <;> rfl

/-- C10: in a prayer cycle the `next` field of the status record and the
name inside the notification summary and body are the same prayer name. -/
theorem C10_status_alert_name_agree (ts : FiveTimes) (localDate now : Int)
    (testMode : Bool) (tr : List Effect) (p : Prayer) (t : Int)
    (hinfo : nextPrayerInfo (scheduleOf ts) now = some (p, t))
    (h : cycleTrace ts localDate now testMode = some tr) :
    (mkOutput ts now).next = p.debugFmt ∧
    Effect.notify (notifySummary ((mkOutput ts now).next))
      (notifyBody ((mkOutput ts now).next)) ∈ tr := by
  have hnext : (mkOutput ts now).next = p.debugFmt := by
    simp [mkOutput, nextPrayerNameForJson, hinfo]
  refine ⟨hnext, ?_⟩
  rw [hnext]
  simp only [cycleTrace, hinfo] at h
  cases testMode <;> simp only [if_true, if_false, Bool.false_eq_true,
      ite_true, ite_false, List.append_assoc, List.nil_append,
      List.cons_append, List.singleton_append, Option.some.injEq] at h <;>
    subst h <;> simp

/-- A concrete schedule used by the cycle-trace witnesses: sorted instants
with `now = 250` between Dhuhr and Asr. -/
def witnessTimes : FiveTimes := ⟨100, 200, 300, 400, 500⟩

/-- The concrete cycle trace of `witnessTimes` at `now = 250` outside test
mode. -/
def witnessTrace : List Effect :=
  [.emitStdout (outputLine witnessTimes 250), .sleep 50,
   .notify (notifySummary Prayer.Asr.debugFmt) (notifyBody Prayer.Asr.debugFmt),
   .sleep 1]

/-- Witness for `C7_status_emission` on the concrete cycle. -/
theorem C7_status_emission_witness :
    witnessTrace.head? = some (.emitStdout (outputLine witnessTimes 250)) ∧
    (witnessTrace.filter Effect.isStdout).length = 1 ∧
    outputLine witnessTimes 250 = (mkOutput witnessTimes 250).toJson ++ "\n" ∧
    noNewline ((mkOutput witnessTimes 250).toJson) := by
  have h := C7_status_emission witnessTimes 0 250 false witnessTrace rfl
  exact ⟨h.1, h.2.1, h.2.2.1, h.2.2.2.1⟩

/-- Witness for `C8_notification_iff_prayer` on the concrete cycle. -/
theorem C8_notification_iff_prayer_witness :
    (witnessTrace.filter Effect.isNotify).length = 1 ∧
    witnessTrace.getLast? = some (.sleep 1) ∧
    witnessTrace.dropLast.getLast? =
      some (.notify (notifySummary Prayer.Asr.debugFmt)
        (notifyBody Prayer.Asr.debugFmt)) :=
  C8_notification_iff_prayer witnessTimes 0 250 false witnessTrace rfl

/-- Witness for `C10_status_alert_name_agree` on the concrete cycle. -/
theorem C10_status_alert_name_agree_witness :
    (mkOutput witnessTimes 250).next = Prayer.Asr.debugFmt ∧
    Effect.notify (notifySummary ((mkOutput witnessTimes 250).next))
      (notifyBody ((mkOutput witnessTimes 250).next)) ∈ witnessTrace :=
  C10_status_alert_name_agree witnessTimes 0 250 false witnessTrace .Asr 300 rfl rfl
